import Mathlib

/-!
Verification of the annuity projection engine of `src/streamlit_app.py`
(repository `unite-deals/annuti_analytics`).

The computational core of the script is lines 55-93: given the sidebar
parameters it computes, per simulation run, a monthly payment schedule under
one of six amortization algorithms, keeping a running `remaining_principal`
accumulator.  The runs are collected in `simulation_results`, turned into a
DataFrame (one column per simulation) and summarized with `df.describe()`.

The embedding below translates that core into Lean over exact rational
arithmetic (the Python floats are modelled as ℚ, so `1.2` becomes `6/5` and
`month / 12` becomes `(month : ℚ) / 12`).  Each definition cites the source
lines it embeds.
-/

namespace AnnuityAnalytics

/-- The `selected_algorithm` selectbox values (src/streamlit_app.py line 52). -/
inductive Algorithm where
  | monteCarlo
  | constantPayment
  | fixedInterestRate
  | decreasingPayment
  | increasingPayment
  | graduatedPayment
deriving DecidableEq, Repr

/-- The sidebar inputs feeding the computation (src/streamlit_app.py lines 37-52).
`annuity_duration` and `num_simulations` are integer inputs; the rest are reals,
modelled exactly as rationals. -/
structure SimulationParameters where
  principal : ℚ
  annual_interest_rate : ℚ
  annuity_duration : ℕ
  num_simulations : ℕ
  mortality_adjustment_factor : ℚ
  algorithm : Algorithm
deriving DecidableEq, Repr

/-- `monthly_interest_rate = annual_interest_rate / 12 / 100` (line 55). -/
def monthly_interest_rate (p : SimulationParameters) : ℚ :=
  p.annual_interest_rate / 12 / 100

/-- The month-loop bound `annuity_duration * 12` (lines 65 and 78). -/
def total_months (p : SimulationParameters) : ℕ :=
  p.annuity_duration * 12

/-- The Monte Carlo `principal_payment`
`(principal * monthly_interest_rate) / (1 - (1 + monthly_interest_rate) ** -(annuity_duration * 12))`
(line 67).  It does not depend on the month nor on `remaining_principal`. -/
def monteCarloPrincipalPayment (p : SimulationParameters) : ℚ :=
  (p.principal * monthly_interest_rate p) /
    (1 - (1 + monthly_interest_rate p) ^ (-(total_months p : ℤ)))

/-- One iteration of the Monte Carlo month loop (lines 66-72): returns the
appended `annuity_payment` and the updated `remaining_principal`.  The
mortality factor scales the reported payment only; the *unadjusted*
`principal_payment` is subtracted from `remaining_principal` (line 72). -/
def monteCarloMonth (p : SimulationParameters) (remaining : ℚ) : ℚ × ℚ :=
  let interest_payment := remaining * monthly_interest_rate p
  let principal_payment := monteCarloPrincipalPayment p
  let annuity_payment := interest_payment + principal_payment
  let annuity_payment := annuity_payment * p.mortality_adjustment_factor
  (annuity_payment, remaining - principal_payment)

/-- The denominator `annuity_duration * 12 - month` of the Decreasing /
Increasing / Graduated branches (lines 84, 86, 88). -/
def monthDenominator (p : SimulationParameters) (month : ℕ) : ℚ :=
  (total_months p : ℚ) - (month : ℚ)

/-- The `if/elif` chain over the non-Monte-Carlo algorithms (lines 79-88),
computing the month's raw `principal_payment` before mortality adjustment.
The `.monteCarlo` case is unreachable: that algorithm takes the other top-level
branch (line 61) and is handled by `monteCarloMonth`. -/
def rawPrincipalPayment (p : SimulationParameters) (month : ℕ) (remaining : ℚ) : ℚ :=
  if p.algorithm = .constantPayment then
    p.principal / (total_months p : ℚ)
  else if p.algorithm = .fixedInterestRate then
    (remaining * monthly_interest_rate p) /
      (1 - (1 + monthly_interest_rate p) ^ (-(total_months p : ℤ)))
  else if p.algorithm = .decreasingPayment then
    remaining / monthDenominator p month
  else if p.algorithm = .increasingPayment then
    (remaining / monthDenominator p month) * (6 / 5)
  else if p.algorithm = .graduatedPayment then
    (remaining / monthDenominator p month) * (1 + (month : ℚ) / 12)
  else 0

/-- One iteration of the non-Monte-Carlo month loop (lines 79-92): the raw
`principal_payment` is scaled by the mortality factor (line 90), appended
(line 91), and the *scaled* value is then subtracted from
`remaining_principal` (line 92). -/
def nonMonteCarloMonth (p : SimulationParameters) (month : ℕ) (remaining : ℚ) : ℚ × ℚ :=
  let principal_payment := rawPrincipalPayment p month remaining
  let principal_payment := principal_payment * p.mortality_adjustment_factor
  (principal_payment, remaining - principal_payment)

/-- One month of the simulation loop: the top-level branch on the selected
algorithm (lines 61 and 74).  Returns (appended payment, new remaining). -/
def monthStep (p : SimulationParameters) (month : ℕ) (remaining : ℚ) : ℚ × ℚ :=
  if p.algorithm = .monteCarlo then monteCarloMonth p remaining
  else nonMonteCarloMonth p month remaining

/-- The `remaining_principal` accumulator after `m` iterations of the month
loop: it starts at `principal` (lines 63, 77) and each month is updated by
`monthStep`. -/
def remainingAfter (p : SimulationParameters) : ℕ → ℚ
  | 0 => p.principal
  | m + 1 => (monthStep p m (remainingAfter p m)).2

/-- The payment appended to `annuity_payments` at month `m` (lines 71, 91). -/
def paymentAt (p : SimulationParameters) (m : ℕ) : ℚ :=
  (monthStep p m (remainingAfter p m)).1

/-- One simulation run: the list `annuity_payments` built by iterating the
month loop for `month in range(annuity_duration * 12)` (lines 65, 78). -/
def computeSchedule (p : SimulationParameters) : List ℚ :=
  (List.range (total_months p)).map (paymentAt p)

/-- `simulation_results`: the outer loop `for _ in range(num_simulations)`
(lines 62, 75) repeats the identical pure computation with a fresh
accumulator, appending one schedule per run. -/
def simulation_results (p : SimulationParameters) : List (List ℚ) :=
  (List.range p.num_simulations).map (fun _ => computeSchedule p)

/-- The column of per-run payment values for month `m` — the transposed
DataFrame row (line 105): one value per simulation run. -/
def monthColumn (p : SimulationParameters) (m : ℕ) : List ℚ :=
  (simulation_results p).filterMap (fun s => s.get? m)

/-- Modelled from the spec: the statistics are produced by the external
`df.describe()` call (line 115), whose implementation is a library outside
this repository.  §4.2 of the spec specifies the column mean. -/
def columnMean (xs : List ℚ) : ℚ :=
  xs.sum / (xs.length : ℚ)

/-- Modelled from the spec: the unbiased sample variance with divisor `n - 1`,
undefined (NaN) when `n ≤ 1`, as specified for `df.describe()`'s standard
deviation in §4.2.  The standard deviation is its square root, so it is
undefined exactly when the variance is. -/
def sampleVariance (xs : List ℚ) : Option ℚ :=
  if xs.length ≤ 1 then none
  else some ((xs.map (fun x => (x - columnMean xs) ^ 2)).sum / ((xs.length : ℚ) - 1))

/-- Replace the mortality adjustment factor, keeping the other parameters. -/
def withFactor (p : SimulationParameters) (f : ℚ) : SimulationParameters :=
  { p with mortality_adjustment_factor := f }

/-- Replace the selected algorithm, keeping the other parameters. -/
def withAlgorithm (p : SimulationParameters) (a : Algorithm) : SimulationParameters :=
  { p with algorithm := a }

/-! ### Unfolding lemmas for the loop and the policy branches -/

lemma remainingAfter_zero (p : SimulationParameters) : remainingAfter p 0 = p.principal := rfl

lemma remainingAfter_succ (p : SimulationParameters) (m : ℕ) :
    remainingAfter p (m + 1) = (monthStep p m (remainingAfter p m)).2 := rfl

lemma monthStep_mc (p : SimulationParameters) (h : p.algorithm = .monteCarlo) (m : ℕ) (r : ℚ) :
    monthStep p m r = monteCarloMonth p r := by
  simp [monthStep, h]

lemma monthStep_of_ne (p : SimulationParameters) (h : p.algorithm ≠ .monteCarlo) (m : ℕ) (r : ℚ) :
    monthStep p m r = nonMonteCarloMonth p m r := by
  simp [monthStep, h]

lemma raw_constant (p : SimulationParameters) (h : p.algorithm = .constantPayment)
    (m : ℕ) (r : ℚ) :
    rawPrincipalPayment p m r = p.principal / (total_months p : ℚ) := by
  simp [rawPrincipalPayment, h]

lemma raw_fixed (p : SimulationParameters) (h : p.algorithm = .fixedInterestRate)
    (m : ℕ) (r : ℚ) :
    rawPrincipalPayment p m r =
      (r * monthly_interest_rate p) /
        (1 - (1 + monthly_interest_rate p) ^ (-(total_months p : ℤ))) := by
  simp [rawPrincipalPayment, h]

lemma raw_decreasing (p : SimulationParameters) (h : p.algorithm = .decreasingPayment)
    (m : ℕ) (r : ℚ) :
    rawPrincipalPayment p m r = r / monthDenominator p m := by
  simp [rawPrincipalPayment, h]

lemma raw_increasing (p : SimulationParameters) (h : p.algorithm = .increasingPayment)
    (m : ℕ) (r : ℚ) :
    rawPrincipalPayment p m r = (r / monthDenominator p m) * (6 / 5) := by
  simp [rawPrincipalPayment, h]

lemma raw_graduated (p : SimulationParameters) (h : p.algorithm = .graduatedPayment)
    (m : ℕ) (r : ℚ) :
    rawPrincipalPayment p m r = (r / monthDenominator p m) * (1 + (m : ℚ) / 12) := by
  simp [rawPrincipalPayment, h]

lemma payment_of_ne (p : SimulationParameters) (h : p.algorithm ≠ .monteCarlo) (m : ℕ) :
    paymentAt p m =
      rawPrincipalPayment p m (remainingAfter p m) * p.mortality_adjustment_factor := by
  rw [paymentAt, monthStep_of_ne p h, nonMonteCarloMonth]

lemma payment_mc (p : SimulationParameters) (h : p.algorithm = .monteCarlo) (m : ℕ) :
    paymentAt p m =
      (remainingAfter p m * monthly_interest_rate p + monteCarloPrincipalPayment p) *
        p.mortality_adjustment_factor := by
  rw [paymentAt, monthStep_mc p h, monteCarloMonth]

lemma remaining_succ_of_ne (p : SimulationParameters) (h : p.algorithm ≠ .monteCarlo) (m : ℕ) :
    remainingAfter p (m + 1) =
      remainingAfter p m -
        rawPrincipalPayment p m (remainingAfter p m) * p.mortality_adjustment_factor := by
  rw [remainingAfter_succ, monthStep_of_ne p h, nonMonteCarloMonth]

lemma remaining_succ_mc (p : SimulationParameters) (h : p.algorithm = .monteCarlo) (m : ℕ) :
    remainingAfter p (m + 1) = remainingAfter p m - monteCarloPrincipalPayment p := by
  rw [remainingAfter_succ, monthStep_mc p h, monteCarloMonth]

/-- Under the Monte Carlo algorithm the accumulator decreases by the constant
level-payment amount each month, hence has a closed form. -/
lemma mc_remaining_closed (p : SimulationParameters) (h : p.algorithm = .monteCarlo) (m : ℕ) :
    remainingAfter p m = p.principal - (m : ℚ) * monteCarloPrincipalPayment p := by
  induction m with
  | zero => simp [remainingAfter_zero]
  | succ m ih =>
      rw [remaining_succ_mc p h, ih]
      push_cast
      ring

lemma withFactor_algorithm (p : SimulationParameters) (f : ℚ) :
    (withFactor p f).algorithm = p.algorithm := rfl

lemma withFactor_principal (p : SimulationParameters) (f : ℚ) :
    (withFactor p f).principal = p.principal := rfl

lemma withFactor_factor (p : SimulationParameters) (f : ℚ) :
    (withFactor p f).mortality_adjustment_factor = f := rfl

lemma withFactor_rate (p : SimulationParameters) (f : ℚ) :
    monthly_interest_rate (withFactor p f) = monthly_interest_rate p := rfl

lemma withFactor_months (p : SimulationParameters) (f : ℚ) :
    total_months (withFactor p f) = total_months p := rfl

lemma withFactor_mcPayment (p : SimulationParameters) (f : ℚ) :
    monteCarloPrincipalPayment (withFactor p f) = monteCarloPrincipalPayment p := rfl

lemma withFactor_raw (p : SimulationParameters) (f : ℚ) (m : ℕ) (r : ℚ) :
    rawPrincipalPayment (withFactor p f) m r = rawPrincipalPayment p m r := rfl

lemma withAlgorithm_algorithm (p : SimulationParameters) (a : Algorithm) :
    (withAlgorithm p a).algorithm = a := rfl

lemma withAlgorithm_principal (p : SimulationParameters) (a : Algorithm) :
    (withAlgorithm p a).principal = p.principal := rfl

lemma withAlgorithm_factor (p : SimulationParameters) (a : Algorithm) :
    (withAlgorithm p a).mortality_adjustment_factor = p.mortality_adjustment_factor := rfl

lemma withAlgorithm_months (p : SimulationParameters) (a : Algorithm) :
    total_months (withAlgorithm p a) = total_months p := rfl

/-! ### Claim C1: order of mortality adjustment and bookkeeping subtraction -/

/-- Constant Payment parameters with mortality factor 2: principal 12 over one
year, so the raw monthly principal portion is 1 and the adjusted payment is 2. -/
def exC1 : SimulationParameters :=
  { principal := 12, annual_interest_rate := 12, annuity_duration := 1,
    num_simulations := 1, mortality_adjustment_factor := 2, algorithm := .constantPayment }

/-- **C1** (counterexample).  The claim says that for *every* policy the
engine subtracts the pre-adjustment principal portion from
`remaining_principal`.  For the Constant Payment policy with principal 12 over
one year and mortality factor 2, the raw portion of month 0 is 1, yet the
accumulator drops from 12 to 10 (the adjusted value 2 is subtracted, line 92),
not to 11. -/
theorem C1_counterexample :
    ¬ (remainingAfter exC1 1 =
        remainingAfter exC1 0 - rawPrincipalPayment exC1 0 (remainingAfter exC1 0)) := by
  show ¬ (remainingAfter exC1 (0 + 1) = _)
  rw [remaining_succ_of_ne exC1 (by decide) 0, raw_constant exC1 rfl]
  norm_num [remainingAfter_zero, total_months, exC1]

/-- **C1** (amended).  For every parameter set and month the engine multiplies
the month's raw amount by `mortality_adjustment_factor` and appends the
adjusted value; it then subtracts from `remaining_principal` the
PRE-adjustment principal portion in the Monte Carlo branch, but the
POST-adjustment value in every other policy branch. -/
theorem C1_adjust_then_subtract (p : SimulationParameters) (m : ℕ) :
    (p.algorithm = .monteCarlo →
       paymentAt p m =
         (remainingAfter p m * monthly_interest_rate p + monteCarloPrincipalPayment p) *
           p.mortality_adjustment_factor ∧
       remainingAfter p (m + 1) = remainingAfter p m - monteCarloPrincipalPayment p) ∧
    (p.algorithm ≠ .monteCarlo →
       paymentAt p m =
         rawPrincipalPayment p m (remainingAfter p m) * p.mortality_adjustment_factor ∧
       remainingAfter p (m + 1) = remainingAfter p m - paymentAt p m) :=
  ⟨fun h => ⟨payment_mc p h m, remaining_succ_mc p h m⟩,
   fun h => ⟨payment_of_ne p h m, by rw [payment_of_ne p h m, remaining_succ_of_ne p h m]⟩⟩

/-- Witness for C1's amended theorem, covering both branches at month 0. -/
theorem C1_witness :
    (remainingAfter exC1 (0 + 1) = remainingAfter exC1 0 - paymentAt exC1 0) ∧
    (remainingAfter (withAlgorithm exC1 .monteCarlo) (0 + 1) =
       remainingAfter (withAlgorithm exC1 .monteCarlo) 0 -
         monteCarloPrincipalPayment (withAlgorithm exC1 .monteCarlo)) :=
  ⟨((C1_adjust_then_subtract exC1 0).2 (by decide)).2,
   ((C1_adjust_then_subtract (withAlgorithm exC1 .monteCarlo) 0).1 rfl).2⟩

/-! ### Claim C2: the Fixed Interest Rate principal portion -/

/-- Fixed Interest Rate parameters chosen so the monthly rate is exactly 1:
`annual_interest_rate / 12 / 100 = 1200/12/100 = 1`, one year, factor 1. -/
def exC2 : SimulationParameters :=
  { principal := 4095, annual_interest_rate := 1200, annuity_duration := 1,
    num_simulations := 1, mortality_adjustment_factor := 1, algorithm := .fixedInterestRate }

/-- **C2** (counterexample).  The claim says the Fixed Interest Rate principal
portion equals `(principal * r) / (1 - (1+r)^-T)` at every month.  The code
(line 82) uses `remaining_principal`, not `principal`, in the numerator: with
monthly rate 1, principal 4095 and T = 12 the formula value is 4096, but at
month 1 the accumulator is 4095 - 4096 = -1 and the computed portion is
-4096/4095. -/
theorem C2_counterexample :
    ¬ (rawPrincipalPayment exC2 1 (remainingAfter exC2 1) =
        (exC2.principal * monthly_interest_rate exC2) /
          (1 - (1 + monthly_interest_rate exC2) ^ (-(total_months exC2 : ℤ)))) := by
  show ¬ (rawPrincipalPayment exC2 (0 + 1) (remainingAfter exC2 (0 + 1)) = _)
  rw [raw_fixed exC2 rfl, remaining_succ_of_ne exC2 (by decide) 0, raw_fixed exC2 rfl]
  norm_num [remainingAfter_zero, monthly_interest_rate, total_months, exC2]

/-- **C2** (amended).  For the Fixed Interest Rate policy the computed
principal portion at month `m` is `(remaining_principal * r) / (1 - (1+r)^-T)`
(line 82); it coincides with the claimed constant `(principal * r) / (1 - (1+r)^-T)`
at month 0, where the accumulator still equals `principal`, but not in
general at later months. -/
theorem C2_fixed_uses_remaining (p : SimulationParameters)
    (h : p.algorithm = .fixedInterestRate) (m : ℕ) :
    rawPrincipalPayment p m (remainingAfter p m) =
      (remainingAfter p m * monthly_interest_rate p) /
        (1 - (1 + monthly_interest_rate p) ^ (-(total_months p : ℤ))) ∧
    rawPrincipalPayment p 0 (remainingAfter p 0) =
      (p.principal * monthly_interest_rate p) /
        (1 - (1 + monthly_interest_rate p) ^ (-(total_months p : ℤ))) :=
  ⟨raw_fixed p h m _, by rw [raw_fixed p h 0, remainingAfter_zero]⟩

/-- Witness for C2's amended theorem at the concrete Fixed Interest Rate
parameters, month 0. -/
theorem C2_witness :
    rawPrincipalPayment exC2 0 (remainingAfter exC2 0) =
      (exC2.principal * monthly_interest_rate exC2) /
        (1 - (1 + monthly_interest_rate exC2) ^ (-(total_months exC2 : ℤ))) :=
  (C2_fixed_uses_remaining exC2 rfl 0).2

/-! ### Claim C3: scaling in the mortality adjustment factor -/

/-- Decreasing Payment parameters with factor 1: principal 12 over one year. -/
def exC3 : SimulationParameters :=
  { principal := 12, annual_interest_rate := 12, annuity_duration := 1,
    num_simulations := 1, mortality_adjustment_factor := 1, algorithm := .decreasingPayment }

/-- **C3** (counterexample).  The claim says doubling the mortality factor
scales every schedule entry by 2 for every policy.  For Decreasing Payment
with principal 12 over one year: with factor 1 the month-1 payment is 1, but
with factor 2 the accumulator after month 0 is 10 (the adjusted payment 2 was
subtracted) and the month-1 payment is (10/11)*2 = 20/11 ≠ 2. -/
theorem C3_counterexample :
    ¬ (∀ m, m < total_months exC3 →
        paymentAt (withFactor exC3 (2 * exC3.mortality_adjustment_factor)) m =
          2 * paymentAt exC3 m) := by
  intro hcl
  have h1 := hcl 1 (by norm_num [total_months, exC3])
  have e1 : paymentAt (withFactor exC3 (2 * exC3.mortality_adjustment_factor)) 1 = 20 / 11 := by
    show paymentAt _ (0 + 1) = _
    rw [payment_of_ne _ (by decide), raw_decreasing _ rfl,
        remaining_succ_of_ne _ (by decide) 0, raw_decreasing _ rfl]
    norm_num [remainingAfter_zero, withFactor, monthDenominator, total_months, exC3]
  have e2 : paymentAt exC3 1 = 1 := by
    show paymentAt _ (0 + 1) = _
    rw [payment_of_ne _ (by decide), raw_decreasing _ rfl,
        remaining_succ_of_ne _ (by decide) 0, raw_decreasing _ rfl]
    norm_num [remainingAfter_zero, monthDenominator, total_months, exC3]
  rw [e1, e2] at h1
  norm_num at h1

/-- **C3** (amended).  The scaling invariant holds for the Monte Carlo policy:
multiplying the mortality factor by `k` scales every schedule entry by exactly
`k` and leaves the `remaining_principal` trajectory unchanged, because that
branch subtracts the pre-adjustment principal portion.  (The invariant does
not hold for *every* policy: the counterexample shows a Decreasing Payment
entry that fails to scale by `k`.) -/
theorem C3_mc_scaling (p : SimulationParameters) (k : ℚ) (h : p.algorithm = .monteCarlo) :
    computeSchedule (withFactor p (k * p.mortality_adjustment_factor)) =
      (computeSchedule p).map (fun x => k * x) ∧
    (∀ m, remainingAfter (withFactor p (k * p.mortality_adjustment_factor)) m =
        remainingAfter p m) := by
  have halg : (withFactor p (k * p.mortality_adjustment_factor)).algorithm = .monteCarlo := h
  have hrem : ∀ m,
      remainingAfter (withFactor p (k * p.mortality_adjustment_factor)) m =
        remainingAfter p m := by
    intro m
    induction m with
    | zero => rfl
    | succ m ih =>
        rw [remaining_succ_mc _ halg, remaining_succ_mc p h, ih, withFactor_mcPayment]
  refine ⟨?_, hrem⟩
  unfold computeSchedule
  rw [withFactor_months, List.map_map]
  refine List.map_congr_left ?_
  intro m _
  simp only [Function.comp_apply]
  rw [payment_mc _ halg, payment_mc p h, hrem, withFactor_mcPayment, withFactor_rate,
    withFactor_factor]
  ring

/-- Witness for C3's amended theorem: tripling the factor on concrete Monte
Carlo parameters triples the whole schedule. -/
theorem C3_witness :
    computeSchedule (withFactor (withAlgorithm exC3 .monteCarlo)
        (3 * (withAlgorithm exC3 .monteCarlo).mortality_adjustment_factor)) =
      (computeSchedule (withAlgorithm exC3 .monteCarlo)).map (fun x => 3 * x) :=
  (C3_mc_scaling (withAlgorithm exC3 .monteCarlo) 3 rfl).1

/-! ### Claim C4: parameter validation -/

/-- Parameters with `annuity_duration = 0`: the claim says this must raise
`InvalidParameterError`. -/
def exC4 : SimulationParameters :=
  { principal := 1000, annual_interest_rate := 5, annuity_duration := 0,
    num_simulations := 2, mortality_adjustment_factor := 1, algorithm := .constantPayment }

/-- **C4** (counterexample).  The script contains no validation whatsoever and
never defines `InvalidParameterError`: with `annuity_duration = 0` (hence
`total_months = 0`) both loops run normally and `simulation_results` ends up
holding `num_simulations = 2` empty schedules — a result is produced, no
error is raised. -/
theorem C4_counterexample :
    exC4.annuity_duration = 0 ∧ simulation_results exC4 = [[], []] := by
  constructor
  · rfl
  · rfl

/-- **C4** (amended).  The code performs no parameter validation: with
`annuity_duration = 0` the month loop body never runs and the engine produces
`num_simulations` empty schedules instead of raising an error.  (The only
guards in the repository are the UI widget bounds, e.g. `min_value=1` on the
duration input at line 43.) -/
theorem C4_no_validation (p : SimulationParameters) (h : p.annuity_duration = 0) :
    simulation_results p = List.replicate p.num_simulations [] := by
  have hc : computeSchedule p = [] := by
    simp [computeSchedule, total_months, h]
  simp [simulation_results, hc, List.map_const']

/-- Witness for C4's amended theorem at the concrete zero-duration input. -/
theorem C4_witness :
    simulation_results exC4 = List.replicate exC4.num_simulations [] :=
  C4_no_validation exC4 rfl

/-! ### Claim C5: shape and identity of the simulation matrix -/

/-- **C5**.  The outer loop produces exactly `num_simulations` schedules; every
schedule has length `total_months = annuity_duration * 12`; and all runs are
numerically identical, each equal to the single deterministic
`computeSchedule`. -/
theorem C5_matrix_shape (p : SimulationParameters) :
    (simulation_results p).length = p.num_simulations ∧
    total_months p = p.annuity_duration * 12 ∧
    (∀ s ∈ simulation_results p, s = computeSchedule p ∧ s.length = total_months p) := by
  refine ⟨by simp [simulation_results], rfl, ?_⟩
  intro s hs
  rw [simulation_results] at hs
  obtain ⟨a, -, rfl⟩ := List.mem_map.mp hs
  exact ⟨rfl, by simp [computeSchedule]⟩

/-- Constant Payment parameters with three simulation runs. -/
def exC5 : SimulationParameters :=
  { principal := 1, annual_interest_rate := 5, annuity_duration := 1,
    num_simulations := 3, mortality_adjustment_factor := 1, algorithm := .constantPayment }

/-- Witness for C5 at a concrete parameter set: the first run is a member of
the matrix, equals the deterministic schedule, and has the right length. -/
theorem C5_witness :
    computeSchedule exC5 = computeSchedule exC5 ∧
    (computeSchedule exC5).length = total_months exC5 :=
  (C5_matrix_shape exC5).2.2 (computeSchedule exC5)
    (by rw [simulation_results]
        exact List.mem_map_of_mem (fun _ => computeSchedule exC5)
          (show 0 ∈ List.range exC5.num_simulations by decide))

/-! ### Claim C6: Constant Payment principal portions sum to the principal -/

/-- **C6**.  For the Constant Payment policy the pre-adjustment principal
portion of every month is `principal / total_months`, so over exact rational
arithmetic the portions of all `total_months` months sum to `principal`; the
sum is independent of the mortality adjustment factor (quantified here as an
arbitrary replacement factor `f`). -/
theorem C6_constant_sum (p : SimulationParameters) (f : ℚ)
    (hA : p.algorithm = .constantPayment) (hT : 0 < total_months p) :
    ((List.range (total_months (withFactor p f))).map
        (fun m =>
          rawPrincipalPayment (withFactor p f) m (remainingAfter (withFactor p f) m))).sum
      = p.principal := by
  have hA2 : (withFactor p f).algorithm = .constantPayment := hA
  have hTne : (total_months p : ℚ) ≠ 0 := Nat.cast_ne_zero.mpr hT.ne'
  have hmap : ∀ m ∈ List.range (total_months (withFactor p f)),
      rawPrincipalPayment (withFactor p f) m (remainingAfter (withFactor p f) m)
        = p.principal / (total_months p : ℚ) := by
    intro m _
    rw [raw_constant _ hA2, withFactor_principal, withFactor_months]
  rw [List.map_congr_left hmap, withFactor_months, List.map_const', List.sum_replicate,
    List.length_range, nsmul_eq_mul]
  field_simp

/-- Constant Payment parameters for the C6 witness. -/
def exC6 : SimulationParameters :=
  { principal := 60, annual_interest_rate := 5, annuity_duration := 1,
    num_simulations := 1, mortality_adjustment_factor := 2, algorithm := .constantPayment }

/-- Witness for C6 with the factor replaced by 7 on concrete parameters. -/
theorem C6_witness :
    ((List.range (total_months (withFactor exC6 7))).map
        (fun m =>
          rawPrincipalPayment (withFactor exC6 7) m (remainingAfter (withFactor exC6 7) m))).sum
      = exC6.principal :=
  C6_constant_sum exC6 7 rfl (by decide)

/-! ### Claim C7: the month loop bound keeps every denominator positive -/

/-- **C7**.  The month loop iterates over `range(annuity_duration * 12)`, so
every index satisfies `m ≤ total_months - 1` and the denominator
`total_months - month` of the Decreasing / Increasing / Graduated branches is
at least 1 — in particular it is never zero, so no division by zero occurs. -/
theorem C7_no_division_by_zero (p : SimulationParameters) (m : ℕ)
    (hm : m ∈ List.range (total_months p)) :
    m ≤ total_months p - 1 ∧ 1 ≤ monthDenominator p m ∧ monthDenominator p m ≠ 0 := by
  rw [List.mem_range] at hm
  have h1 : (m : ℚ) + 1 ≤ (total_months p : ℚ) := by exact_mod_cast hm
  have h2 : 1 ≤ monthDenominator p m := by rw [monthDenominator]; linarith
  refine ⟨by omega, h2, ?_⟩
  intro h0
  rw [h0] at h2
  norm_num at h2

/-- Decreasing Payment parameters for the C7 witness. -/
def exC7 : SimulationParameters :=
  { principal := 100, annual_interest_rate := 5, annuity_duration := 1,
    num_simulations := 1, mortality_adjustment_factor := 1, algorithm := .decreasingPayment }

/-- Witness for C7 at the last month index of a one-year schedule. -/
theorem C7_witness :
    11 ≤ total_months exC7 - 1 ∧ 1 ≤ monthDenominator exC7 11 ∧ monthDenominator exC7 11 ≠ 0 :=
  C7_no_division_by_zero exC7 11 (by decide)

/-! ### Claim C8: statistics of a single-run matrix -/

lemma computeSchedule_getElem (p : SimulationParameters) (m : ℕ) (hm : m < total_months p) :
    (computeSchedule p)[m]? = some (paymentAt p m) := by
  rw [computeSchedule, List.getElem?_map, List.getElem?_range hm, Option.map_some']

/-- **C8**.  With `num_simulations = 1` every month column of the matrix is the
single payment value of that month, so its mean equals that value, the
unbiased sample standard deviation (divisor `n-1`) is undefined (its variance
is `none`), and the column minimum and maximum both equal the mean. -/
theorem C8_single_run_stats (p : SimulationParameters) (h1 : p.num_simulations = 1)
    (m : ℕ) (hm : m < total_months p) :
    monthColumn p m = [paymentAt p m] ∧
    columnMean (monthColumn p m) = paymentAt p m ∧
    sampleVariance (monthColumn p m) = none ∧
    (monthColumn p m).min? = some (columnMean (monthColumn p m)) ∧
    (monthColumn p m).max? = some (columnMean (monthColumn p m)) := by
  have hcol : monthColumn p m = [paymentAt p m] := by
    rw [monthColumn, simulation_results, h1]
    simp [show List.range 1 = [0] from rfl, List.filterMap_cons,
      computeSchedule_getElem p m hm]
  have hmean : columnMean [paymentAt p m] = paymentAt p m := by
    simp [columnMean]
  refine ⟨hcol, ?_, ?_, ?_, ?_⟩
  · rw [hcol]; exact hmean
  · rw [hcol]; simp [sampleVariance]
  · rw [hcol, hmean]; simp [List.min?]
  · rw [hcol, hmean]; simp [List.max?]

/-- Graduated Payment parameters with a single simulation run. -/
def exC8 : SimulationParameters :=
  { principal := 24, annual_interest_rate := 6, annuity_duration := 1,
    num_simulations := 1, mortality_adjustment_factor := 1, algorithm := .graduatedPayment }

/-- Witness for C8 at month 0 of a concrete single-run parameter set. -/
theorem C8_witness :
    columnMean (monthColumn exC8 0) = paymentAt exC8 0 ∧
    sampleVariance (monthColumn exC8 0) = none :=
  ⟨(C8_single_run_stats exC8 rfl 0 (by decide)).2.1,
   (C8_single_run_stats exC8 rfl 0 (by decide)).2.2.1⟩

/-! ### Claim C9: Decreasing Payment with factor 1 equals Constant Payment -/

/-- With the Decreasing Payment policy and mortality factor 1 the accumulator
after `m` months equals `principal * (T - m) / T` — each month removes exactly
`principal / T`. -/
lemma decreasing_remaining_closed (p : SimulationParameters)
    (hA : p.algorithm = .decreasingPayment) (hf : p.mortality_adjustment_factor = 1)
    (hT : 0 < total_months p) :
    ∀ m, m ≤ total_months p →
      remainingAfter p m =
        p.principal * ((total_months p : ℚ) - (m : ℚ)) / (total_months p : ℚ) := by
  have hTne : (total_months p : ℚ) ≠ 0 := Nat.cast_ne_zero.mpr hT.ne'
  have hne : p.algorithm ≠ .monteCarlo := by rw [hA]; decide
  intro m
  induction m with
  | zero =>
      intro _
      rw [remainingAfter_zero, Nat.cast_zero, sub_zero, mul_div_assoc, div_self hTne, mul_one]
  | succ m ih =>
      intro hm
      have hmlt : m < total_months p := by omega
      have hmq : (m : ℚ) < (total_months p : ℚ) := by exact_mod_cast hmlt
      have hdne : (total_months p : ℚ) - (m : ℚ) ≠ 0 := sub_ne_zero.mpr hmq.ne'
      rw [remaining_succ_of_ne p hne m, raw_decreasing p hA, ih (by omega), hf,
        monthDenominator, mul_one]
      push_cast
      field_simp
      ring

/-- **C9**.  With mortality factor 1 the Decreasing Payment policy reproduces
the Constant Payment schedule exactly: every monthly payment is
`principal / total_months`, and the accumulator after month `m` (0-indexed) is
`principal * (total_months - m - 1) / total_months`. -/
theorem C9_decreasing_eq_constant (p : SimulationParameters)
    (hA : p.algorithm = .decreasingPayment) (hf : p.mortality_adjustment_factor = 1) :
    computeSchedule p = computeSchedule (withAlgorithm p .constantPayment) ∧
    (∀ m, m < total_months p → paymentAt p m = p.principal / (total_months p : ℚ)) ∧
    (∀ m, m < total_months p →
       remainingAfter p (m + 1) =
         p.principal * ((total_months p : ℚ) - (m : ℚ) - 1) / (total_months p : ℚ)) := by
  have hne : p.algorithm ≠ .monteCarlo := by rw [hA]; decide
  have hpay : ∀ m, m < total_months p → paymentAt p m = p.principal / (total_months p : ℚ) := by
    intro m hm
    have hT : 0 < total_months p := by omega
    have hTne : (total_months p : ℚ) ≠ 0 := Nat.cast_ne_zero.mpr hT.ne'
    have hmq : (m : ℚ) < (total_months p : ℚ) := by exact_mod_cast hm
    have hdne : (total_months p : ℚ) - (m : ℚ) ≠ 0 := sub_ne_zero.mpr hmq.ne'
    rw [payment_of_ne p hne m, raw_decreasing p hA,
      decreasing_remaining_closed p hA hf hT m hm.le, hf, monthDenominator, mul_one]
    field_simp
    ring
  have hrem : ∀ m, m < total_months p →
      remainingAfter p (m + 1) =
        p.principal * ((total_months p : ℚ) - (m : ℚ) - 1) / (total_months p : ℚ) := by
    intro m hm
    have hT : 0 < total_months p := by omega
    rw [decreasing_remaining_closed p hA hf hT (m + 1) (by omega)]
    push_cast
    ring_nf
  refine ⟨?_, hpay, hrem⟩
  unfold computeSchedule
  rw [withAlgorithm_months]
  refine List.map_congr_left ?_
  intro m hm
  rw [List.mem_range] at hm
  rw [hpay m hm, payment_of_ne _ (by rw [withAlgorithm_algorithm]; decide),
    raw_constant _ (withAlgorithm_algorithm p .constantPayment), withAlgorithm_principal,
    withAlgorithm_months, withAlgorithm_factor, hf, mul_one]

/-- Decreasing Payment parameters with factor 1 for the C9 witness. -/
def exC9 : SimulationParameters :=
  { principal := 36, annual_interest_rate := 9, annuity_duration := 2,
    num_simulations := 1, mortality_adjustment_factor := 1, algorithm := .decreasingPayment }

/-- Witness for C9: the two policies produce the same schedule on concrete
parameters, and the month-0 payment is the flat split. -/
theorem C9_witness :
    computeSchedule exC9 = computeSchedule (withAlgorithm exC9 .constantPayment) ∧
    paymentAt exC9 0 = exC9.principal / (total_months exC9 : ℚ) :=
  ⟨(C9_decreasing_eq_constant exC9 rfl rfl).1,
   (C9_decreasing_eq_constant exC9 rfl rfl).2.1 0 (by decide)⟩

/-! ### Claim C10: the Monte Carlo payment is strictly decreasing -/

/-- **C10**.  For the Monte Carlo policy with positive interest rate,
principal, mortality factor and duration: the accumulator decreases by the
constant level-payment amount `A` each month (`remaining = principal - m*A`),
consecutive reported payments differ by exactly `r * A * factor`, and the
reported payment is strictly decreasing in the month index. -/
theorem C10_mc_strictly_decreasing (p : SimulationParameters)
    (hA : p.algorithm = .monteCarlo) (hr : 0 < p.annual_interest_rate)
    (hP : 0 < p.principal) (hf : 0 < p.mortality_adjustment_factor)
    (hd : 0 < p.annuity_duration) :
    (∀ m, remainingAfter p m = p.principal - (m : ℚ) * monteCarloPrincipalPayment p) ∧
    (∀ m, paymentAt p m - paymentAt p (m + 1) =
       monthly_interest_rate p * monteCarloPrincipalPayment p *
         p.mortality_adjustment_factor) ∧
    (∀ m, paymentAt p (m + 1) < paymentAt p m) := by
  have hrm : 0 < monthly_interest_rate p := by
    rw [monthly_interest_rate]
    exact div_pos (div_pos hr (by norm_num)) (by norm_num)
  have hTne : total_months p ≠ 0 := by
    rw [total_months]; omega
  have hone : (1 : ℚ) < 1 + monthly_interest_rate p := by linarith
  have hpow : (1 : ℚ) < (1 + monthly_interest_rate p) ^ total_months p := one_lt_pow₀ hone hTne
  have hden : 0 < 1 - (1 + monthly_interest_rate p) ^ (-(total_months p : ℤ)) := by
    rw [zpow_neg, zpow_natCast]
    have hinv : ((1 + monthly_interest_rate p) ^ total_months p)⁻¹ < 1 :=
      inv_lt_one_of_one_lt₀ hpow
    linarith
  have hApos : 0 < monteCarloPrincipalPayment p := by
    rw [monteCarloPrincipalPayment]
    exact div_pos (mul_pos hP hrm) hden
  have hdiff : ∀ m, paymentAt p m - paymentAt p (m + 1) =
      monthly_interest_rate p * monteCarloPrincipalPayment p *
        p.mortality_adjustment_factor := by
    intro m
    rw [payment_mc p hA m, payment_mc p hA (m + 1), mc_remaining_closed p hA m,
      mc_remaining_closed p hA (m + 1)]
    push_cast
    ring
  refine ⟨mc_remaining_closed p hA, hdiff, ?_⟩
  intro m
  have hpos : 0 < monthly_interest_rate p * monteCarloPrincipalPayment p *
      p.mortality_adjustment_factor :=
    mul_pos (mul_pos hrm hApos) hf
  have hd2 := hdiff m
  linarith

/-- Monte Carlo parameters with monthly rate exactly 1 for the C10 witness. -/
def exC10 : SimulationParameters :=
  { principal := 4095, annual_interest_rate := 1200, annuity_duration := 1,
    num_simulations := 1, mortality_adjustment_factor := 1, algorithm := .monteCarlo }

/-- Witness for C10: on concrete Monte Carlo parameters the month-1 payment is
strictly below the month-0 payment. -/
theorem C10_witness : paymentAt exC10 (0 + 1) < paymentAt exC10 0 :=
  (C10_mc_strictly_decreasing exC10 rfl (by norm_num [exC10]) (by norm_num [exC10])
    (by norm_num [exC10]) (by decide)).2.2 0

end AnnuityAnalytics
